import Mathlib

/-!
Verification of the OVH provider adapter (`provider/ovh.go`) of the
external-dns repository.

The Go file is shallowly embedded below.  Go strings are modelled as
`List Char` (`GoStr`), Go `int`/`int64` as `Int`, and fallible remote
calls as `Except GoStr`-valued responses drawn from an oracle
(`Client`) that fixes, for every possible request, the answer the
remote API would give.  The write path (`createRecords`,
`deleteRecords`, `updateRecords`) is void in Go; it is embedded as a
function producing the list of remote calls actually issued
(`ApiCall`), which makes "no call happens" claims stateable.

External collaborators that live in the external-dns repository but
outside the source file under analysis are abstracted:
`DomainFilter.Match`, `zoneIDName.FindZone` and `supportedRecordType`
become arbitrary function fields of `OVHProvider`, so every theorem
quantifies over all of their behaviours.
-/

namespace OVH

/-- Go strings, modelled as lists of characters. -/
abbrev GoStr := List Char

/-- Go `strings.HasSuffix(s, suffix)`:
`len(s) >= len(suffix) && s[len(s)-len(suffix):] == suffix`. -/
def hasSuffix (s suffix : GoStr) : Bool :=
  decide (suffix.length ≤ s.length) &&
    decide (s.drop (s.length - suffix.length) = suffix)

/-- Go `strings.TrimSuffix(s, suffix)`: drops the suffix when present,
returns `s` unchanged otherwise. -/
def trimSuffix (s suffix : GoStr) : GoStr :=
  if hasSuffix s suffix then s.take (s.length - suffix.length) else s

/-- `formatOVHDNSName` from `provider/ovh.go`. -/
def formatOVHDNSName (recordName zoneName : GoStr) : GoStr :=
  if recordName = [] then zoneName else recordName ++ '.' :: zoneName

/-- `getOVHSubDomain` from `provider/ovh.go`. -/
def getOVHSubDomain (DNSName zoneName : GoStr) : GoStr :=
  if DNSName ≠ zoneName then trimSuffix DNSName ('.' :: zoneName) else []

/-- `OvhDomainZoneRecord` from `provider/ovh.go`. -/
structure OvhDomainZoneRecord where
  id : Int
  zone : GoStr
  target : GoStr
  ttl : Int
  fieldType : GoStr
  subDomain : GoStr
deriving DecidableEq, Repr

/-- Modelled from the spec: the normalized `endpoint.Endpoint` of the
external-dns project is not under the analysed sources; per the spec it
is a record with fully-qualified DNS name, record type, TTL and an
ordered sequence of target strings. -/
structure Endpoint where
  dnsName : GoStr
  recordType : GoStr
  recordTTL : Int
  targets : List GoStr
deriving DecidableEq, Repr

/-- Modelled from the spec: `endpoint.NewEndpointWithTTL` is not under
the analysed sources; per the spec the conversion produces an endpoint
with exactly the given fully-qualified name, record type, TTL and
target sequence. -/
def NewEndpointWithTTL (dnsName recordType : GoStr) (ttl : Int)
    (targets : List GoStr) : Endpoint :=
  { dnsName := dnsName, recordType := recordType,
    recordTTL := ttl, targets := targets }

/-- The endpoint `Records` builds from a fetched record of a zone
(lines 102-108 of `provider/ovh.go`). -/
def recordToEndpoint (record : OvhDomainZoneRecord) (zone : GoStr) : Endpoint :=
  NewEndpointWithTTL (formatOVHDNSName record.subDomain zone)
    record.fieldType record.ttl [record.target]

/-- Oracle for the remote OVH API: for every request the `ovh.Client`
could issue, the response it would get.  Lookup requests are the three
GET shapes used by `ovh.go`; write requests may also fail. -/
structure Client where
  getZonesResp : Except GoStr (List GoStr)
  getRecordIDsResp : GoStr → Except GoStr (List Int)
  getRecordResp : GoStr → Int → Except GoStr OvhDomainZoneRecord
  getFilteredIDsResp : GoStr → GoStr → GoStr → Except GoStr (List Int)
  postResp : GoStr → OvhDomainZoneRecord → Except GoStr OvhDomainZoneRecord
  putResp : GoStr → Int → OvhDomainZoneRecord → Except GoStr Unit
  deleteResp : GoStr → Int → Except GoStr Unit

/-- `OVHProvider` from `provider/ovh.go`.  `domainFilter` abstracts
`DomainFilter.Match`, `findZone` abstracts `zoneIDName.FindZone` (its
first return value; the second is unused by `ovh.go`), and
`supportedRecordType` abstracts the package-level allow-list predicate;
all three live outside the analysed file. -/
structure OVHProvider where
  domainFilter : GoStr → Bool
  dryRun : Bool
  client : Client
  findZone : List GoStr → GoStr → GoStr
  supportedRecordType : GoStr → Bool

/-- `plan.Changes`, the changeset handed to `ApplyChanges`. -/
structure Changes where
  create : List Endpoint
  updateOld : List Endpoint
  updateNew : List Endpoint
  delete : List Endpoint

/-- A remote API call issued by the adapter. -/
inductive ApiCall where
  | getZones : ApiCall
  | getRecordIDs (zone : GoStr) : ApiCall
  | getRecord (zone : GoStr) (id : Int) : ApiCall
  | getFilteredIDs (zone : GoStr) (fieldType subDomain : GoStr) : ApiCall
  | post (zone : GoStr) (record : OvhDomainZoneRecord) : ApiCall
  | put (zone : GoStr) (id : Int) (record : OvhDomainZoneRecord) : ApiCall
  | delete (zone : GoStr) (id : Int) : ApiCall
deriving DecidableEq, Repr

/-- A call is mutating when it is a POST, PUT or DELETE. -/
def ApiCall.isMutating : ApiCall → Bool
  | .post _ _ => true
  | .put _ _ _ => true
  | .delete _ _ => true
  | _ => false

/-- Replace the dry-run flag of a provider. -/
def setDryRun (p : OVHProvider) (b : Bool) : OVHProvider :=
  { p with dryRun := b }

/-! ## The read path: `Records` (lines 74-116) -/

/-- The inner loop of `Records`: fetch each record id of a zone and
convert the supported ones (lines 93-112).  A fetch error aborts. -/
def fetchRecords (p : OVHProvider) (zone : GoStr) :
    List Int → Except GoStr (List Endpoint)
  | [] => .ok []
  | i :: rest =>
    match p.client.getRecordResp zone i with
    | .error e => .error e
    | .ok record =>
      match fetchRecords p zone rest with
      | .error e => .error e
      | .ok tail =>
        .ok ((if p.supportedRecordType record.fieldType = true then
                [recordToEndpoint record zone]
              else []) ++ tail)

/-- The body of `Records` for one zone (lines 83-113): skip a zone
that fails the domain filter, otherwise list its record ids and fetch
each record. -/
def recordsForZone (p : OVHProvider) (zone : GoStr) :
    Except GoStr (List Endpoint) :=
  if p.domainFilter zone = true then
    match p.client.getRecordIDsResp zone with
    | .error e => .error e
    | .ok ids => fetchRecords p zone ids
  else .ok []

/-- The outer loop of `Records` over all zones (lines 82-114). -/
def recordsLoop (p : OVHProvider) : List GoStr → Except GoStr (List Endpoint)
  | [] => .ok []
  | z :: rest =>
    match recordsForZone p z with
    | .error e => .error e
    | .ok eps =>
      match recordsLoop p rest with
      | .error e => .error e
      | .ok tail => .ok (eps ++ tail)

/-- `Records` from `provider/ovh.go` (lines 74-116). -/
def Records (p : OVHProvider) : Except GoStr (List Endpoint) :=
  match p.client.getZonesResp with
  | .error e => .error e
  | .ok zones => recordsLoop p zones

/-! ## The write path: `createRecords`, `deleteRecords`, `updateRecords`

Each per-endpoint body returns the list of remote calls it issues; the
Go functions return nothing, log failures and `continue`, so errors of
a write call leave the trace unchanged (the call was still issued) and
never escape. -/

/-- The record body built from an endpoint with a single target, both
by `createRecords` (lines 150-155) and by `updateRecords` (lines
244-249): target, TTL, field type and the sub-domain of the endpoint's
name relative to the owning zone; id and zone keep their zero values. -/
def endpointRecord (ep : Endpoint) (zoneName : GoStr) : OvhDomainZoneRecord :=
  { id := 0, zone := [], target := ep.targets.headD [],
    ttl := ep.recordTTL, fieldType := ep.recordType,
    subDomain := getOVHSubDomain ep.dnsName zoneName }

/-- One iteration of the `createRecords` loop (lines 138-177): skip on
domain-filter mismatch, missing zone or target-count other than one;
otherwise build the record and, outside dry-run, POST it.  A POST
failure is logged and absorbed. -/
def createRecord (p : OVHProvider) (zones : List GoStr) (ep : Endpoint) :
    List ApiCall :=
  if p.domainFilter ep.dnsName = false then []
  else if p.findZone zones ep.dnsName ≠ [] then
    if ep.targets.length ≠ 1 then []
    else if p.dryRun then []
    else
      match p.client.postResp (p.findZone zones ep.dnsName)
          (endpointRecord ep (p.findZone zones ep.dnsName)) with
      | .ok _ => [ApiCall.post (p.findZone zones ep.dnsName)
          (endpointRecord ep (p.findZone zones ep.dnsName))]
      | .error _ => [ApiCall.post (p.findZone zones ep.dnsName)
          (endpointRecord ep (p.findZone zones ep.dnsName))]
  else []

/-- `createRecords` (lines 137-178): the loop over the create list. -/
def createRecords (p : OVHProvider) (zones : List GoStr) :
    List Endpoint → List ApiCall
  | [] => []
  | ep :: rest => createRecord p zones ep ++ createRecords p zones rest

/-- One iteration of the `deleteRecords` loop (lines 181-217): skip on
domain-filter mismatch or missing zone; otherwise look up the record
ids filtered by field type and sub-domain, require exactly one id, and
outside dry-run DELETE it.  Lookup and DELETE failures are absorbed. -/
def deleteRecord (p : OVHProvider) (zones : List GoStr) (ep : Endpoint) :
    List ApiCall :=
  if p.domainFilter ep.dnsName = false then []
  else if p.findZone zones ep.dnsName ≠ [] then
    ApiCall.getFilteredIDs (p.findZone zones ep.dnsName) ep.recordType
        (getOVHSubDomain ep.dnsName (p.findZone zones ep.dnsName)) ::
      (match p.client.getFilteredIDsResp (p.findZone zones ep.dnsName)
          ep.recordType
          (getOVHSubDomain ep.dnsName (p.findZone zones ep.dnsName)) with
       | .error _ => []
       | .ok ids =>
         if ids.length ≠ 1 then []
         else if p.dryRun then []
         else
           match p.client.deleteResp (p.findZone zones ep.dnsName)
               (ids.headD 0) with
           | .ok _ => [ApiCall.delete (p.findZone zones ep.dnsName)
               (ids.headD 0)]
           | .error _ => [ApiCall.delete (p.findZone zones ep.dnsName)
               (ids.headD 0)])
  else []

/-- `deleteRecords` (lines 180-218): the loop over the delete list. -/
def deleteRecords (p : OVHProvider) (zones : List GoStr) :
    List Endpoint → List ApiCall
  | [] => []
  | ep :: rest => deleteRecord p zones ep ++ deleteRecords p zones rest

/-- One iteration of the `updateRecords` loop (lines 221-270): like
delete but the target-count check precedes the filtered lookup, and the
unique id is PUT with the rebuilt record.  Lookup and PUT failures are
absorbed. -/
def updateRecord (p : OVHProvider) (zones : List GoStr) (ep : Endpoint) :
    List ApiCall :=
  if p.domainFilter ep.dnsName = false then []
  else if p.findZone zones ep.dnsName ≠ [] then
    if ep.targets.length ≠ 1 then []
    else
      ApiCall.getFilteredIDs (p.findZone zones ep.dnsName) ep.recordType
          (getOVHSubDomain ep.dnsName (p.findZone zones ep.dnsName)) ::
        (match p.client.getFilteredIDsResp (p.findZone zones ep.dnsName)
            ep.recordType
            (getOVHSubDomain ep.dnsName (p.findZone zones ep.dnsName)) with
         | .error _ => []
         | .ok ids =>
           if ids.length ≠ 1 then []
           else if p.dryRun then []
           else
             match p.client.putResp (p.findZone zones ep.dnsName)
                 (ids.headD 0)
                 (endpointRecord ep (p.findZone zones ep.dnsName)) with
             | .ok _ => [ApiCall.put (p.findZone zones ep.dnsName)
                 (ids.headD 0)
                 (endpointRecord ep (p.findZone zones ep.dnsName))]
             | .error _ => [ApiCall.put (p.findZone zones ep.dnsName)
                 (ids.headD 0)
                 (endpointRecord ep (p.findZone zones ep.dnsName))])
  else []

/-- `updateRecords` (lines 220-271): the loop over the update list. -/
def updateRecords (p : OVHProvider) (zones : List GoStr) :
    List Endpoint → List ApiCall
  | [] => []
  | ep :: rest => updateRecord p zones ep ++ updateRecords p zones rest

/-- `ApplyChanges` from `provider/ovh.go` (lines 119-135): enumerate
the zones (failing the whole call if that fails), build the
zone-name lookup table (the zone list itself: the Go map sends each
zone name to itself), then process creates, deletes and the new side of
updates.  Returns the trace of remote calls and the Go error value. -/
def ApplyChanges (p : OVHProvider) (changes : Changes) :
    List ApiCall × Option GoStr :=
  match p.client.getZonesResp with
  | .error e => ([ApiCall.getZones], some e)
  | .ok zones =>
    (ApiCall.getZones ::
      (createRecords p zones changes.create ++
        deleteRecords p zones changes.delete ++
        updateRecords p zones changes.updateNew), none)

/-! ## Concrete fixtures used to witness the theorems below -/

/-- A concrete record of zone `ex`: sub-domain `w`, type `A`,
target `1`, TTL 300. -/
def demoRecord : OvhDomainZoneRecord :=
  { id := 1, zone := ['e', 'x'], target := ['1'], ttl := 300,
    fieldType := ['A'], subDomain := ['w'] }

/-- A concrete oracle: one zone `ex` with one record, filtered lookups
answer `[7]`, writes succeed. -/
def demoClient : Client :=
  { getZonesResp := .ok [['e', 'x']]
  , getRecordIDsResp := fun _ => .ok [1]
  , getRecordResp := fun _ _ => .ok demoRecord
  , getFilteredIDsResp := fun _ _ _ => .ok [7]
  , postResp := fun _ r => .ok r
  , putResp := fun _ _ _ => .ok ()
  , deleteResp := fun _ _ => .ok () }

/-- A concrete provider over `demoClient`: filter accepts everything,
no dry-run, `findZone` answers the first known zone, only type `A` is
supported. -/
def demoProvider : OVHProvider :=
  { domainFilter := fun _ => true
  , dryRun := false
  , client := demoClient
  , findZone := fun zones _ => zones.headD []
  , supportedRecordType := fun t => decide (t = ['A']) }

/-- `demoProvider` with a zone enumeration that fails with error `b`. -/
def failProvider : OVHProvider :=
  { demoProvider with client := { demoClient with getZonesResp := .error ['b'] } }

/-- `demoProvider` whose single-record fetch fails with error `f`. -/
def fetchFailProvider : OVHProvider :=
  { demoProvider with
      client := { demoClient with getRecordResp := fun _ _ => .error ['f'] } }

/-- `demoProvider` whose filtered record-id lookup is ambiguous
(two matching ids). -/
def ambiguousProvider : OVHProvider :=
  { demoProvider with
      client := { demoClient with getFilteredIDsResp := fun _ _ _ => .ok [7, 8] } }

/-- `demoProvider` with a domain filter that rejects everything. -/
def rejectAllProvider : OVHProvider :=
  { demoProvider with domainFilter := fun _ => false }

/-- The endpoint `w.ex`, type `A`, one target. -/
def demoEndpoint : Endpoint :=
  { dnsName := ['w', '.', 'e', 'x'], recordType := ['A'],
    recordTTL := 300, targets := [['1']] }

/-- `demoEndpoint` with two targets. -/
def multiTargetEndpoint : Endpoint :=
  { demoEndpoint with targets := [['1'], ['2']] }

/-- A changeset containing `demoEndpoint` in all three lists. -/
def demoChanges : Changes :=
  { create := [demoEndpoint], updateOld := [demoEndpoint],
    updateNew := [demoEndpoint], delete := [demoEndpoint] }

/-! ## Helper lemmas about the Go string operations -/

theorem hasSuffix_iff (s b : GoStr) : hasSuffix s b = true ↔ b <:+ s := by
  unfold hasSuffix
  simp only [Bool.and_eq_true, decide_eq_true_eq]
  constructor
  · rintro ⟨hle, hdrop⟩
    exact ⟨s.take (s.length - b.length), by
      conv_rhs => rw [← List.take_append_drop (s.length - b.length) s]
      rw [hdrop]⟩
  · rintro ⟨a, rfl⟩
    refine ⟨by simp, ?_⟩
    have hlen : (a ++ b).length - b.length = a.length := by simp
    rw [hlen, List.drop_left]

theorem trimSuffix_append (a b : GoStr) : trimSuffix (a ++ b) b = a := by
  unfold trimSuffix
  rw [if_pos ((hasSuffix_iff _ _).mpr (List.suffix_append a b))]
  have hlen : (a ++ b).length - b.length = a.length := by simp
  rw [hlen, List.take_left]

theorem trimSuffix_eq_nil_iff (s b : GoStr) :
    trimSuffix s b = [] ↔ s = [] ∨ s = b := by
  unfold trimSuffix
  by_cases h : hasSuffix s b = true
  · have hsuf : b <:+ s := (hasSuffix_iff s b).mp h
    rw [if_pos h, List.take_eq_nil_iff]
    constructor
    · rintro (h0 | rfl)
      · exact Or.inr
          (hsuf.eq_of_length
            (Nat.le_antisymm hsuf.length_le (Nat.le_of_sub_eq_zero h0))).symm
      · exact Or.inl rfl
    · rintro (rfl | rfl)
      · exact Or.inr rfl
      · exact Or.inl (by simp)
  · rw [if_neg h]
    constructor
    · exact fun h0 => Or.inl h0
    · rintro (rfl | rfl)
      · rfl
      · exact absurd ((hasSuffix_iff s s).mpr (List.suffix_refl s)) h

/-! ## C8: when is the computed sub-domain empty? -/

/-- C8 counterexample: the claim "getOVHSubDomain(f, z) is empty iff
f = z" fails at f = `.ex`, z = `ex`: the fully-qualified name differs
from the zone, yet trimming the suffix `.ex` leaves the empty
sub-domain. -/
theorem getOVHSubDomain_empty_iff_counterexample :
    ¬ (getOVHSubDomain ['.', 'e', 'x'] ['e', 'x'] = [] ↔
        ['.', 'e', 'x'] = ['e', 'x']) := by
  decide

/-- C8 (amended): for every fully-qualified name `f` and zone name `z`,
`getOVHSubDomain f z` is the empty string if and only if `f` equals `z`
exactly, or `f` is the empty string, or `f` is exactly `"." ++ z`. -/
theorem getOVHSubDomain_empty_iff (f z : GoStr) :
    getOVHSubDomain f z = [] ↔ f = z ∨ f = [] ∨ f = '.' :: z := by
  unfold getOVHSubDomain
  by_cases h : f = z
  · simp [h]
  · rw [if_pos h, trimSuffix_eq_nil_iff]
    constructor
    · rintro (rfl | rfl)
      · exact Or.inr (Or.inl rfl)
      · exact Or.inr (Or.inr rfl)
    · rintro (rfl | rfl | rfl)
      · exact absurd rfl h
      · exact Or.inl rfl
      · exact Or.inr rfl

/-! ## C9: the formatting and sub-domain helpers round-trip -/

/-- C9: for every sub-domain `s` and zone name `z`,
`getOVHSubDomain (formatOVHDNSName s z) z = s`: formatting a
sub-domain into a fully-qualified name and extracting it back is the
identity, including the empty sub-domain, which maps to the bare zone
name and back. -/
theorem getOVHSubDomain_formatOVHDNSName (s z : GoStr) :
    getOVHSubDomain (formatOVHDNSName s z) z = s := by
  unfold formatOVHDNSName
  by_cases hs : s = []
  · rw [if_pos hs, hs]
    unfold getOVHSubDomain
    simp
  · rw [if_neg hs]
    unfold getOVHSubDomain
    have hne : s ++ '.' :: z ≠ z := by
      intro heq
      have hlen := congrArg List.length heq
      simp at hlen
      omega
    rw [if_pos hne, trimSuffix_append]

/-! ## Helper lemmas about the read path -/

theorem fetchRecords_ok (p : OVHProvider) (z : GoStr)
    (recOf : Int → OvhDomainZoneRecord) :
    ∀ ids : List Int,
      (∀ i ∈ ids, p.client.getRecordResp z i = .ok (recOf i)) →
      fetchRecords p z ids = .ok (ids.filterMap (fun i =>
        if p.supportedRecordType (recOf i).fieldType = true then
          some (recordToEndpoint (recOf i) z)
        else none)) := by
  intro ids
  induction ids with
  | nil => intro _; rfl
  | cons i rest ih =>
    intro h
    have hi := h i (List.mem_cons_self i rest)
    have hrest := ih (fun j hj => h j (List.mem_cons_of_mem _ hj))
    unfold fetchRecords
    rw [hi, hrest, List.filterMap_cons]
    by_cases hs : p.supportedRecordType (recOf i).fieldType = true
    · simp [hs]
    · simp [hs]

theorem recordsLoop_ok (p : OVHProvider) (idsOf : GoStr → List Int)
    (recOf : GoStr → Int → OvhDomainZoneRecord) :
    ∀ zs : List GoStr,
      (∀ z ∈ zs, p.domainFilter z = true →
        p.client.getRecordIDsResp z = .ok (idsOf z)) →
      (∀ z ∈ zs, p.domainFilter z = true →
        ∀ i ∈ idsOf z, p.client.getRecordResp z i = .ok (recOf z i)) →
      recordsLoop p zs = .ok (zs.flatMap (fun z =>
        if p.domainFilter z = true then
          (idsOf z).filterMap (fun i =>
            if p.supportedRecordType (recOf z i).fieldType = true then
              some (recordToEndpoint (recOf z i) z)
            else none)
        else [])) := by
  intro zs
  induction zs with
  | nil => intro _ _; rfl
  | cons z rest ih =>
    intro hids hrec
    have hrest := ih
      (fun w hw => hids w (List.mem_cons_of_mem _ hw))
      (fun w hw => hrec w (List.mem_cons_of_mem _ hw))
    unfold recordsLoop recordsForZone
    by_cases hf : p.domainFilter z = true
    · simp only [if_pos hf, hids z (List.mem_cons_self z rest) hf,
        fetchRecords_ok p z (recOf z) (idsOf z)
          (hrec z (List.mem_cons_self z rest) hf),
        hrest]
      simp [hf]
    · simp only [if_neg hf, hrest]
      simp [hf]

theorem fetchRecords_ok_inv (p : OVHProvider) (z : GoStr) :
    ∀ (ids : List Int) (l : List Endpoint),
      fetchRecords p z ids = .ok l →
      ∀ i ∈ ids, ∃ r, p.client.getRecordResp z i = .ok r := by
  intro ids
  induction ids with
  | nil => intro l _ i hi; cases hi
  | cons j rest ih =>
    intro l h i hi
    unfold fetchRecords at h
    cases hj : p.client.getRecordResp z j with
    | error e => rw [hj] at h; cases h
    | ok r =>
      rw [hj] at h
      cases ht : fetchRecords p z rest with
      | error e => rw [ht] at h; cases h
      | ok tail =>
        cases List.mem_cons.mp hi with
        | inl hieq => exact ⟨r, hieq ▸ hj⟩
        | inr hmem => exact ih tail ht i hmem

theorem recordsForZone_ok_inv (p : OVHProvider) (z : GoStr)
    (l : List Endpoint) (h : recordsForZone p z = .ok l)
    (hf : p.domainFilter z = true) :
    ∃ ids, p.client.getRecordIDsResp z = .ok ids ∧
      fetchRecords p z ids = .ok l := by
  unfold recordsForZone at h
  rw [if_pos hf] at h
  cases hids : p.client.getRecordIDsResp z with
  | error e => rw [hids] at h; cases h
  | ok ids => rw [hids] at h; exact ⟨ids, rfl, h⟩

theorem recordsLoop_ok_inv (p : OVHProvider) :
    ∀ (zs : List GoStr) (eps : List Endpoint),
      recordsLoop p zs = .ok eps →
      ∀ z ∈ zs, ∃ l, recordsForZone p z = .ok l := by
  intro zs
  induction zs with
  | nil => intro eps _ z hz; cases hz
  | cons z0 rest ih =>
    intro eps h z hz
    unfold recordsLoop at h
    cases h1 : recordsForZone p z0 with
    | error e => rw [h1] at h; cases h
    | ok l0 =>
      rw [h1] at h
      cases h2 : recordsLoop p rest with
      | error e => rw [h2] at h; cases h
      | ok tl =>
        cases List.mem_cons.mp hz with
        | inl hzeq => exact ⟨l0, hzeq ▸ h1⟩
        | inr hmem => exact ih tl h2 z hmem

theorem fetchRecords_error_of_first (p : OVHProvider) (z : GoStr)
    (i : Int) (ids2 : List Int) (e : GoStr)
    (hi : p.client.getRecordResp z i = .error e) :
    ∀ ids1 : List Int,
      (∀ j ∈ ids1, ∃ r, p.client.getRecordResp z j = .ok r) →
      fetchRecords p z (ids1 ++ i :: ids2) = .error e := by
  intro ids1
  induction ids1 with
  | nil =>
    intro _
    show fetchRecords p z (i :: ids2) = .error e
    unfold fetchRecords
    rw [hi]
  | cons j rest ih =>
    intro h
    obtain ⟨r, hr⟩ := h j (List.mem_cons_self j rest)
    have htail := ih (fun k hk => h k (List.mem_cons_of_mem _ hk))
    show fetchRecords p z (j :: (rest ++ i :: ids2)) = .error e
    unfold fetchRecords
    rw [hr, htail]

theorem recordsForZone_error_of_ids (p : OVHProvider) (z : GoStr) (e : GoStr)
    (hf : p.domainFilter z = true)
    (hids : p.client.getRecordIDsResp z = .error e) :
    recordsForZone p z = .error e := by
  unfold recordsForZone
  rw [if_pos hf, hids]

theorem recordsForZone_error_of_fetch (p : OVHProvider) (z : GoStr)
    (ids : List Int) (e : GoStr)
    (hf : p.domainFilter z = true)
    (hids : p.client.getRecordIDsResp z = .ok ids)
    (hfetch : fetchRecords p z ids = .error e) :
    recordsForZone p z = .error e := by
  unfold recordsForZone
  rw [if_pos hf, hids]
  exact hfetch

theorem recordsLoop_error_of_first (p : OVHProvider) (z : GoStr)
    (zs2 : List GoStr) (e : GoStr)
    (hz : recordsForZone p z = .error e) :
    ∀ zs1 : List GoStr,
      (∀ w ∈ zs1, ∃ l, recordsForZone p w = .ok l) →
      recordsLoop p (zs1 ++ z :: zs2) = .error e := by
  intro zs1
  induction zs1 with
  | nil =>
    intro _
    show recordsLoop p (z :: zs2) = .error e
    unfold recordsLoop
    rw [hz]
  | cons w rest ih =>
    intro h
    obtain ⟨l, hl⟩ := h w (List.mem_cons_self w rest)
    have htail := ih (fun v hv => h v (List.mem_cons_of_mem _ hv))
    show recordsLoop p (w :: (rest ++ z :: zs2)) = .error e
    unfold recordsLoop
    rw [hl, htail]

/-! ## C1: `Records` converts exactly the supported records -/

/-- C1: whenever the remote reads succeed (zones `zs`, per-zone ids
`idsOf`, per-id records `recOf`), `Records` returns, for every zone
matched by the domain filter and every record fetched from it, an
endpoint exactly when the record's field type is in the supported-type
allow-list, and that endpoint has fully-qualified name
`formatOVHDNSName subDomain zone` — which is `subDomain ++ "." ++ zone`
when the sub-domain is non-empty and the bare zone name otherwise —
record type equal to the record's field type, TTL equal to the record's
TTL, and the record's target as single target. -/
theorem records_produces_iff_supported
    (p : OVHProvider) (zs : List GoStr) (idsOf : GoStr → List Int)
    (recOf : GoStr → Int → OvhDomainZoneRecord)
    (hz : p.client.getZonesResp = .ok zs)
    (hids : ∀ z ∈ zs, p.domainFilter z = true →
      p.client.getRecordIDsResp z = .ok (idsOf z))
    (hrec : ∀ z ∈ zs, p.domainFilter z = true →
      ∀ i ∈ idsOf z, p.client.getRecordResp z i = .ok (recOf z i)) :
    Records p = .ok (zs.flatMap (fun z =>
      if p.domainFilter z = true then
        (idsOf z).filterMap (fun i =>
          if p.supportedRecordType (recOf z i).fieldType = true then
            some { dnsName := formatOVHDNSName (recOf z i).subDomain z,
                   recordType := (recOf z i).fieldType,
                   recordTTL := (recOf z i).ttl,
                   targets := [(recOf z i).target] }
          else none)
      else []))
    ∧ (∀ s z, formatOVHDNSName s z = if s = [] then z else s ++ '.' :: z) := by
  constructor
  · unfold Records
    rw [hz]
    exact recordsLoop_ok p idsOf recOf zs hids hrec
  · intro s z
    rfl

/-- C1 witness: the hypotheses of `records_produces_iff_supported` hold
for the concrete provider `demoProvider`, and the single `A` record of
zone `ex` becomes the endpoint `w.ex`. -/
theorem records_produces_iff_supported_witness :
    Records demoProvider =
      .ok [{ dnsName := ['w', '.', 'e', 'x'], recordType := ['A'],
             recordTTL := 300, targets := [['1']] }] := by
  have h := (records_produces_iff_supported demoProvider [['e', 'x']]
    (fun _ => [1]) (fun _ _ => demoRecord) rfl
    (fun _ _ _ => rfl) (fun _ _ _ _ _ => rfl)).1
  rw [h]
  rfl

/-! ## C3: `Records` is fail-fast -/

/-- C3: a failing zone listing makes `Records` return that error (and
by the `Except` result shape no partial endpoint list); whenever
`Records` succeeds, every record-id listing of a filter-matched zone
and every single record fetch behind it succeeded, so any failing read
means no `.ok` result is returned; and the error is propagated
exactly: the first failing record-id listing — all zones before it
fully processed — makes `Records` return that error, and likewise the
first failing single-record fetch — all records before it in its zone
fetched, all zones before it fully processed. -/
theorem records_fail_fast (p : OVHProvider) :
    (∀ e, p.client.getZonesResp = .error e → Records p = .error e)
    ∧ (∀ zs eps, p.client.getZonesResp = .ok zs → Records p = .ok eps →
        ∀ z ∈ zs, p.domainFilter z = true →
          ∃ ids, p.client.getRecordIDsResp z = .ok ids ∧
            ∀ i ∈ ids, ∃ r, p.client.getRecordResp z i = .ok r)
    ∧ (∀ zs1 z zs2 e,
        p.client.getZonesResp = .ok (zs1 ++ z :: zs2) →
        (∀ w ∈ zs1, ∃ l, recordsForZone p w = .ok l) →
        p.domainFilter z = true →
        p.client.getRecordIDsResp z = .error e →
        Records p = .error e)
    ∧ (∀ zs1 z zs2 ids1 i ids2 e,
        p.client.getZonesResp = .ok (zs1 ++ z :: zs2) →
        (∀ w ∈ zs1, ∃ l, recordsForZone p w = .ok l) →
        p.domainFilter z = true →
        p.client.getRecordIDsResp z = .ok (ids1 ++ i :: ids2) →
        (∀ j ∈ ids1, ∃ r, p.client.getRecordResp z j = .ok r) →
        p.client.getRecordResp z i = .error e →
        Records p = .error e) := by
  refine ⟨?_, ?_, ?_, ?_⟩
  · intro e he
    unfold Records
    rw [he]
  · intro zs eps hz hok z hmem hf
    unfold Records at hok
    rw [hz] at hok
    obtain ⟨l, hl⟩ := recordsLoop_ok_inv p zs eps hok z hmem
    obtain ⟨ids, hids, hfetch⟩ := recordsForZone_ok_inv p z l hl hf
    exact ⟨ids, hids, fetchRecords_ok_inv p z ids l hfetch⟩
  · intro zs1 z zs2 e hz hpre hf hids
    unfold Records
    rw [hz]
    exact recordsLoop_error_of_first p z zs2 e
      (recordsForZone_error_of_ids p z e hf hids) zs1 hpre
  · intro zs1 z zs2 ids1 i ids2 e hz hpre hf hids hjpre hi
    unfold Records
    rw [hz]
    exact recordsLoop_error_of_first p z zs2 e
      (recordsForZone_error_of_fetch p z (ids1 ++ i :: ids2) e hf hids
        (fetchRecords_error_of_first p z i ids2 e hi ids1 hjpre)) zs1 hpre

/-- C3 witness: applying `records_fail_fast` to `failProvider`, whose
zone listing fails with error `b`, shows `Records` propagates it; and
to `fetchFailProvider`, whose single-record fetch of id 1 in zone `ex`
fails with error `f`, shows `Records` returns exactly that error. -/
theorem records_fail_fast_witness :
    Records failProvider = .error ['b'] ∧
    Records fetchFailProvider = .error ['f'] :=
  ⟨(records_fail_fast failProvider).1 ['b'] rfl,
    (records_fail_fast fetchFailProvider).2.2.2 [] ['e', 'x'] [] [] 1 [] ['f']
      rfl (fun w hw => absurd hw (List.not_mem_nil w)) rfl rfl
      (fun j hj => absurd hj (List.not_mem_nil j)) rfl⟩

/-! ## C2: `ApplyChanges` fails exactly when the zone listing fails -/

/-- C2: `ApplyChanges` returns a non-nil error exactly when the
initial zone enumeration fails (and then returns that error); the
per-endpoint bodies absorb every write failure — the provider `p`, and
with it every possible response of the write oracle, is universally
quantified, and the result is `none` whenever the zone listing
succeeds — and each list is processed one endpoint after the other,
a head endpoint never stopping the processing of the rest. -/
theorem applyChanges_error_iff_zones (p : OVHProvider) (c : Changes) :
    ((ApplyChanges p c).2 = none ↔ ∃ zs, p.client.getZonesResp = .ok zs)
    ∧ (∀ e, p.client.getZonesResp = .error e → (ApplyChanges p c).2 = some e)
    ∧ (∀ zones ep rest,
        createRecords p zones (ep :: rest) =
          createRecord p zones ep ++ createRecords p zones rest ∧
        deleteRecords p zones (ep :: rest) =
          deleteRecord p zones ep ++ deleteRecords p zones rest ∧
        updateRecords p zones (ep :: rest) =
          updateRecord p zones ep ++ updateRecords p zones rest) := by
  refine ⟨?_, ?_, ?_⟩
  · unfold ApplyChanges
    cases h : p.client.getZonesResp with
    | error e => simp [h]
    | ok zs => simp [h]
  · intro e he
    unfold ApplyChanges
    rw [he]
  · intro zones ep rest
    exact ⟨rfl, rfl, rfl⟩

/-- C2 witness: for `failProvider` the zone enumeration fails with
error `b` and `ApplyChanges` returns exactly that error. -/
theorem applyChanges_error_iff_zones_witness :
    (ApplyChanges failProvider demoChanges).2 = some ['b'] :=
  (applyChanges_error_iff_zones failProvider demoChanges).2.1 ['b'] rfl

/-! ## C6: create and update skip endpoints without exactly one target -/

/-- C6: an endpoint whose number of targets differs from one makes the
create and update bodies issue no remote call at all (neither lookup
nor mutation), and the remaining endpoints of the list are processed
exactly as if it were absent. -/
theorem multi_target_skipped (p : OVHProvider) (zones : List GoStr)
    (ep : Endpoint) (h : ep.targets.length ≠ 1) :
    createRecord p zones ep = [] ∧ updateRecord p zones ep = []
    ∧ (∀ rest, createRecords p zones (ep :: rest) = createRecords p zones rest)
    ∧ (∀ rest, updateRecords p zones (ep :: rest) = updateRecords p zones rest) := by
  have hc : createRecord p zones ep = [] := by
    unfold createRecord
    by_cases h1 : p.domainFilter ep.dnsName = false
    · rw [if_pos h1]
    · rw [if_neg h1]
      by_cases h2 : p.findZone zones ep.dnsName ≠ []
      · simp only [if_pos h2, if_pos h]
      · simp only [if_neg h2]
  have hu : updateRecord p zones ep = [] := by
    unfold updateRecord
    by_cases h1 : p.domainFilter ep.dnsName = false
    · rw [if_pos h1]
    · rw [if_neg h1]
      by_cases h2 : p.findZone zones ep.dnsName ≠ []
      · simp only [if_pos h2, if_pos h]
      · simp only [if_neg h2]
  refine ⟨hc, hu, ?_, ?_⟩
  · intro rest
    show createRecord p zones ep ++ createRecords p zones rest =
      createRecords p zones rest
    rw [hc]
    rfl
  · intro rest
    show updateRecord p zones ep ++ updateRecords p zones rest =
      updateRecords p zones rest
    rw [hu]
    rfl

/-- C6 witness: `multiTargetEndpoint` has two targets and both the
create and the update body issue no call for it. -/
theorem multi_target_skipped_witness :
    multiTargetEndpoint.targets.length ≠ 1 ∧
    createRecord demoProvider [['e', 'x']] multiTargetEndpoint = [] :=
  ⟨by decide,
    (multi_target_skipped demoProvider [['e', 'x']] multiTargetEndpoint
      (by decide)).1⟩

/-! ## C7: the domain filter short-circuits every write body -/

/-- C7: an endpoint whose DNS name fails the configured domain filter
produces zero remote calls in each of the create, delete and update
bodies. -/
theorem filter_mismatch_no_calls (p : OVHProvider) (zones : List GoStr)
    (ep : Endpoint) (h : p.domainFilter ep.dnsName = false) :
    createRecord p zones ep = [] ∧ deleteRecord p zones ep = []
    ∧ updateRecord p zones ep = [] := by
  refine ⟨?_, ?_, ?_⟩
  · unfold createRecord
    rw [if_pos h]
  · unfold deleteRecord
    rw [if_pos h]
  · unfold updateRecord
    rw [if_pos h]

/-- C7 witness: under `rejectAllProvider`, whose filter rejects every
name, the delete body of `demoEndpoint` issues no call. -/
theorem filter_mismatch_no_calls_witness :
    rejectAllProvider.domainFilter demoEndpoint.dnsName = false ∧
    deleteRecord rejectAllProvider [['e', 'x']] demoEndpoint = [] :=
  ⟨rfl,
    (filter_mismatch_no_calls rejectAllProvider [['e', 'x']] demoEndpoint
      rfl).2.1⟩

/-! ## C5: ambiguous or failing filtered lookup blocks the mutation -/

/-- C5: if the filtered record-id lookup for an endpoint fails or
returns a number of ids other than one, neither the delete body nor the
update body issues any mutating call for that endpoint, and the
remaining endpoints of either list are still processed. -/
theorem ambiguous_lookup_no_mutation (p : OVHProvider) (zones : List GoStr)
    (ep : Endpoint)
    (h : (∃ e, p.client.getFilteredIDsResp (p.findZone zones ep.dnsName)
            ep.recordType
            (getOVHSubDomain ep.dnsName (p.findZone zones ep.dnsName)) =
            .error e)
       ∨ (∃ ids, p.client.getFilteredIDsResp (p.findZone zones ep.dnsName)
            ep.recordType
            (getOVHSubDomain ep.dnsName (p.findZone zones ep.dnsName)) =
            .ok ids ∧ ids.length ≠ 1)) :
    (∀ call ∈ deleteRecord p zones ep, call.isMutating = false)
    ∧ (∀ call ∈ updateRecord p zones ep, call.isMutating = false)
    ∧ (∀ rest, deleteRecords p zones (ep :: rest) =
        deleteRecord p zones ep ++ deleteRecords p zones rest)
    ∧ (∀ rest, updateRecords p zones (ep :: rest) =
        updateRecord p zones ep ++ updateRecords p zones rest) := by
  refine ⟨?_, ?_, fun rest => rfl, fun rest => rfl⟩
  · intro call hc
    unfold deleteRecord at hc
    by_cases h1 : p.domainFilter ep.dnsName = false
    · rw [if_pos h1] at hc; cases hc
    · rw [if_neg h1] at hc
      by_cases h2 : p.findZone zones ep.dnsName ≠ []
      · rw [if_pos h2] at hc
        rcases h with ⟨e, he⟩ | ⟨ids, hids, hlen⟩
        · rw [he] at hc
          simp at hc
          rw [hc]
          rfl
        · rw [hids] at hc
          simp only [if_pos hlen] at hc
          simp at hc
          rw [hc]
          rfl
      · rw [if_neg h2] at hc; cases hc
  · intro call hc
    unfold updateRecord at hc
    by_cases h1 : p.domainFilter ep.dnsName = false
    · rw [if_pos h1] at hc; cases hc
    · rw [if_neg h1] at hc
      by_cases h2 : p.findZone zones ep.dnsName ≠ []
      · rw [if_pos h2] at hc
        by_cases h3 : ep.targets.length ≠ 1
        · rw [if_pos h3] at hc; cases hc
        · rw [if_neg h3] at hc
          rcases h with ⟨e, he⟩ | ⟨ids, hids, hlen⟩
          · rw [he] at hc
            simp at hc
            rw [hc]
            rfl
          · rw [hids] at hc
            simp only [if_pos hlen] at hc
            simp at hc
            rw [hc]
            rfl
      · rw [if_neg h2] at hc; cases hc

/-- C5 witness: under `ambiguousProvider` the filtered lookup for
`demoEndpoint` answers two ids, and the delete body of a two-element
list still hands the rest of the list over. -/
theorem ambiguous_lookup_no_mutation_witness :
    ambiguousProvider.client.getFilteredIDsResp
        (ambiguousProvider.findZone [['e', 'x']] demoEndpoint.dnsName)
        demoEndpoint.recordType
        (getOVHSubDomain demoEndpoint.dnsName
          (ambiguousProvider.findZone [['e', 'x']] demoEndpoint.dnsName)) =
      .ok [7, 8] ∧
    deleteRecords ambiguousProvider [['e', 'x']] [demoEndpoint] =
      deleteRecord ambiguousProvider [['e', 'x']] demoEndpoint ++
        deleteRecords ambiguousProvider [['e', 'x']] [] :=
  ⟨rfl,
    (ambiguous_lookup_no_mutation ambiguousProvider [['e', 'x']] demoEndpoint
      (Or.inr ⟨[7, 8], rfl, by decide⟩)).2.2.1 []⟩

/-! ## C10: the delete body never inspects the endpoint's targets -/

/-- C10: the delete body is entirely independent of the endpoint's
target list, and for an endpoint that passes the domain filter and the
zone lookup, whose filtered lookup returns exactly one id, outside
dry-run the body issues exactly the lookup GET followed by the DELETE
of that id — whatever the targets are. -/
theorem delete_ignores_targets (p : OVHProvider) (zones : List GoStr)
    (ep : Endpoint) :
    (∀ ts, deleteRecord p zones { ep with targets := ts } =
      deleteRecord p zones ep)
    ∧ (p.domainFilter ep.dnsName = true →
       p.findZone zones ep.dnsName ≠ [] →
       p.dryRun = false →
       ∀ i, p.client.getFilteredIDsResp (p.findZone zones ep.dnsName)
              ep.recordType
              (getOVHSubDomain ep.dnsName (p.findZone zones ep.dnsName)) =
            .ok [i] →
       deleteRecord p zones ep =
         [ApiCall.getFilteredIDs (p.findZone zones ep.dnsName) ep.recordType
            (getOVHSubDomain ep.dnsName (p.findZone zones ep.dnsName)),
          ApiCall.delete (p.findZone zones ep.dnsName) i]) := by
  constructor
  · intro ts
    rfl
  · intro hf hz hdry i hids
    unfold deleteRecord
    rw [if_neg (by simp [hf]), if_pos hz, hids]
    have hlen : ¬ ([i] : List Int).length ≠ 1 := by simp
    simp only [if_neg hlen, hdry]
    simp only [Bool.false_eq_true, if_false]
    cases p.client.deleteResp (p.findZone zones ep.dnsName)
        (([i] : List Int).headD 0) <;> rfl

/-- C10 witness: under `demoProvider` (one matching id 7, no dry-run)
the delete body of `demoEndpoint` issues the lookup GET and then the
DELETE of id 7; the body is unchanged when the targets are emptied. -/
theorem delete_ignores_targets_witness :
    deleteRecord demoProvider [['e', 'x']] { demoEndpoint with targets := [] } =
      deleteRecord demoProvider [['e', 'x']] demoEndpoint ∧
    deleteRecord demoProvider [['e', 'x']] demoEndpoint =
      [ApiCall.getFilteredIDs ['e', 'x'] ['A'] ['w'],
       ApiCall.delete ['e', 'x'] 7] := by
  constructor
  · exact (delete_ignores_targets demoProvider [['e', 'x']] demoEndpoint).1 []
  · have h := (delete_ignores_targets demoProvider [['e', 'x']]
      demoEndpoint).2 rfl (by decide) rfl 7 rfl
    rw [h]
    rfl

/-! ## Helper lemmas for the dry-run claim -/

theorem createRecord_dry_filter (p : OVHProvider) (zones : List GoStr)
    (ep : Endpoint) (h : p.dryRun = true) :
    createRecord p zones ep =
      (createRecord (setDryRun p false) zones ep).filter
        (fun call => !call.isMutating) := by
  obtain ⟨df, dr, cl, fz, srt⟩ := p
  simp only [setDryRun] at *
  subst h
  unfold createRecord
  by_cases h1 : df ep.dnsName = false
  · simp [h1]
  · by_cases h2 : fz zones ep.dnsName ≠ []
    · by_cases h3 : ep.targets.length ≠ 1
      · simp [h1, h2, h3]
      · simp only [if_neg h1, if_pos h2, if_neg h3]
        cases cl.postResp (fz zones ep.dnsName)
            (endpointRecord ep (fz zones ep.dnsName)) <;>
          simp [ApiCall.isMutating]
    · simp [h1, h2]

theorem deleteRecord_dry_filter (p : OVHProvider) (zones : List GoStr)
    (ep : Endpoint) (h : p.dryRun = true) :
    deleteRecord p zones ep =
      (deleteRecord (setDryRun p false) zones ep).filter
        (fun call => !call.isMutating) := by
  obtain ⟨df, dr, cl, fz, srt⟩ := p
  simp only [setDryRun] at *
  subst h
  unfold deleteRecord
  by_cases h1 : df ep.dnsName = false
  · simp [h1]
  · by_cases h2 : fz zones ep.dnsName ≠ []
    · simp only [if_neg h1, if_pos h2]
      cases cl.getFilteredIDsResp (fz zones ep.dnsName) ep.recordType
          (getOVHSubDomain ep.dnsName (fz zones ep.dnsName)) with
      | error e => simp [ApiCall.isMutating]
      | ok ids =>
        by_cases h3 : ids.length ≠ 1
        · simp [h3, ApiCall.isMutating]
        · simp only [if_neg h3]
          cases cl.deleteResp (fz zones ep.dnsName) (ids.headD 0) <;>
            simp [ApiCall.isMutating]
    · simp [h1, h2]

theorem updateRecord_dry_filter (p : OVHProvider) (zones : List GoStr)
    (ep : Endpoint) (h : p.dryRun = true) :
    updateRecord p zones ep =
      (updateRecord (setDryRun p false) zones ep).filter
        (fun call => !call.isMutating) := by
  obtain ⟨df, dr, cl, fz, srt⟩ := p
  simp only [setDryRun] at *
  subst h
  unfold updateRecord
  by_cases h1 : df ep.dnsName = false
  · simp [h1]
  · by_cases h2 : fz zones ep.dnsName ≠ []
    · by_cases h3 : ep.targets.length ≠ 1
      · simp [h1, h2, h3]
      · simp only [if_neg h1, if_pos h2, if_neg h3]
        cases cl.getFilteredIDsResp (fz zones ep.dnsName) ep.recordType
            (getOVHSubDomain ep.dnsName (fz zones ep.dnsName)) with
        | error e => simp [ApiCall.isMutating]
        | ok ids =>
          by_cases h4 : ids.length ≠ 1
          · simp [h4, ApiCall.isMutating]
          · simp only [if_neg h4]
            cases cl.putResp (fz zones ep.dnsName) (ids.headD 0)
                (endpointRecord ep (fz zones ep.dnsName)) <;>
              simp [ApiCall.isMutating]
    · simp [h1, h2]

theorem createRecords_dry_filter (p : OVHProvider) (zones : List GoStr)
    (l : List Endpoint) (h : p.dryRun = true) :
    createRecords p zones l =
      (createRecords (setDryRun p false) zones l).filter
        (fun call => !call.isMutating) := by
  induction l with
  | nil => rfl
  | cons ep rest ih =>
    simp only [createRecords]
    rw [List.filter_append, ← ih, ← createRecord_dry_filter p zones ep h]

theorem deleteRecords_dry_filter (p : OVHProvider) (zones : List GoStr)
    (l : List Endpoint) (h : p.dryRun = true) :
    deleteRecords p zones l =
      (deleteRecords (setDryRun p false) zones l).filter
        (fun call => !call.isMutating) := by
  induction l with
  | nil => rfl
  | cons ep rest ih =>
    simp only [deleteRecords]
    rw [List.filter_append, ← ih, ← deleteRecord_dry_filter p zones ep h]

theorem updateRecords_dry_filter (p : OVHProvider) (zones : List GoStr)
    (l : List Endpoint) (h : p.dryRun = true) :
    updateRecords p zones l =
      (updateRecords (setDryRun p false) zones l).filter
        (fun call => !call.isMutating) := by
  induction l with
  | nil => rfl
  | cons ep rest ih =>
    simp only [updateRecords]
    rw [List.filter_append, ← ih, ← updateRecord_dry_filter p zones ep h]

/-! ## C4: dry-run performs the lookups but no mutation -/

/-- C4: with the dry-run flag set, the trace of `ApplyChanges` is
exactly the trace of the same provider with dry-run cleared restricted
to its non-mutating calls — so every lookup GET (the zone enumeration
and the filtered record-id lookups of the delete and update paths)
still occurs — and in particular no POST, PUT or DELETE occurs. -/
theorem applyChanges_dryRun (p : OVHProvider) (c : Changes)
    (h : p.dryRun = true) :
    (ApplyChanges p c).1 =
      ((ApplyChanges (setDryRun p false) c).1).filter
        (fun call => !call.isMutating)
    ∧ (∀ call ∈ (ApplyChanges p c).1, call.isMutating = false) := by
  have hcl : (setDryRun p false).client = p.client := rfl
  have heq : (ApplyChanges p c).1 =
      ((ApplyChanges (setDryRun p false) c).1).filter
        (fun call => !call.isMutating) := by
    unfold ApplyChanges
    rw [hcl]
    have hcons : ∀ l : List ApiCall,
        List.filter (fun call => !call.isMutating) (ApiCall.getZones :: l) =
          ApiCall.getZones :: List.filter (fun call => !call.isMutating) l :=
      fun l => rfl
    cases hz : p.client.getZonesResp with
    | error e => exact (hcons []).symm
    | ok zs =>
      show ApiCall.getZones ::
          (createRecords p zs c.create ++ deleteRecords p zs c.delete ++
            updateRecords p zs c.updateNew) =
        List.filter (fun call => !call.isMutating)
          (ApiCall.getZones ::
            (createRecords (setDryRun p false) zs c.create ++
              deleteRecords (setDryRun p false) zs c.delete ++
              updateRecords (setDryRun p false) zs c.updateNew))
      rw [hcons, List.filter_append, List.filter_append,
        ← createRecords_dry_filter p zs c.create h,
        ← deleteRecords_dry_filter p zs c.delete h,
        ← updateRecords_dry_filter p zs c.updateNew h]
  refine ⟨heq, ?_⟩
  intro call hc
  rw [heq] at hc
  have hmem := List.of_mem_filter hc
  simpa using hmem

/-- C4 witness: for the dry-run version of `demoProvider` and the
demo changeset, the trace equals the non-mutating restriction of the
wet trace. -/
theorem applyChanges_dryRun_witness :
    (setDryRun demoProvider true).dryRun = true ∧
    (ApplyChanges (setDryRun demoProvider true) demoChanges).1 =
      ((ApplyChanges (setDryRun (setDryRun demoProvider true) false)
          demoChanges).1).filter (fun call => !call.isMutating) :=
  ⟨rfl,
    (applyChanges_dryRun (setDryRun demoProvider true) demoChanges rfl).1⟩

end OVH
